import Mathlib

/-!
Verification of the obsidian-cross-domain-connector discovery and scoring
engine.  JavaScript numbers are modelled as rationals (`ℚ`) except where the
mathematics of `Math.sqrt` matters (cosine similarity, settled over `ℝ`), and
`NaN` (which can arise from `parseFloat` on a digit-free match) is modelled as
`none` in `Option ℚ`.  Nondeterministic collaborators (the classifier service,
the embeddings reader, `Math.random`-based shuffling/sampling, the LLM) are
modelled as explicit function parameters, as they are injected dependencies in
the source.  All other definitions are direct translations of the TypeScript
source.
-/

/-- JS `Math.max(0, Math.min(1, v))`, the clamp both value-object
constructors apply. -/
def jsClamp01 (v : ℚ) : ℚ := max 0 (min 1 v)

/-- JS substring test `s.includes(pat)` for char lists: `pat` occurs
contiguously in `s`. -/
def listIncludes (s pat : List Char) : Bool :=
  decide (pat <:+: s)

/-- `s.includes(pat)` on strings. -/
def strIncludes (s pat : String) : Bool :=
  listIncludes s.toList pat.toList

/-- `pat.isPrefixOf s` as used for JS `s.startsWith(pat)`. -/
def strStarts (s pat : String) : Bool :=
  pat.toList.isPrefixOf s.toList

-- =============================================================================
-- SerendipityScore value object (src/unnamed/part_002)
-- =============================================================================

/-- Parameter bundle of `SerendipityScore.calculate`. -/
structure SerendipityScoreParams where
  similarity : ℚ
  domainDistance : ℚ
  isAlreadyLinked : Bool
  genericTermsCount : ℕ
deriving Repr

/-- `SerendipityScore`: the private constructor clamps into [0,1], so every
score is built through `jsClamp01`. -/
structure SerendipityScore where
  value : ℚ
deriving Repr, DecidableEq

namespace SerendipityScore

/-- The private TS constructor `new SerendipityScore(value)`. -/
def mk' (v : ℚ) : SerendipityScore := ⟨jsClamp01 v⟩

/-- `SerendipityScore.calculate`:
`base = similarity*0.4 + domainDistance*0.6`,
`noveltyPenalty = isAlreadyLinked ? 0.5 : 1.0`,
`specificityPenalty = max(0.3, 1 - genericTermsCount*0.15)`,
result `base * noveltyPenalty * specificityPenalty` clamped by the
constructor. -/
def calculate (p : SerendipityScoreParams) : SerendipityScore :=
  let baseScore := p.similarity * (4/10) + p.domainDistance * (6/10)
  let noveltyPenalty : ℚ := if p.isAlreadyLinked then 1/2 else 1
  let specificityPenalty : ℚ := max (3/10) (1 - (p.genericTermsCount : ℚ) * (15/100))
  mk' (baseScore * noveltyPenalty * specificityPenalty)

/-- `SerendipityScore.fromValue`. -/
def fromValue (v : ℚ) : SerendipityScore := mk' v

/-- `isHighSerendipity()`: value >= 0.7. -/
def isHighSerendipity (s : SerendipityScore) : Bool := decide ((7:ℚ)/10 ≤ s.value)

/-- `isMediumSerendipity()`: 0.4 <= value < 0.7. -/
def isMediumSerendipity (s : SerendipityScore) : Bool :=
  decide ((4:ℚ)/10 ≤ s.value) && decide (s.value < (7:ℚ)/10)

/-- `isLowSerendipity()`: value < 0.4. -/
def isLowSerendipity (s : SerendipityScore) : Bool := decide (s.value < (4:ℚ)/10)

/-- The three tiers returned by `getLevel()`. -/
inductive Level where
  | high
  | medium
  | low
deriving Repr, DecidableEq

/-- `getLevel()`: high / medium / low by the predicates above, first match
wins. -/
def getLevel (s : SerendipityScore) : Level :=
  if s.isHighSerendipity then .high
  else if s.isMediumSerendipity then .medium
  else .low

end SerendipityScore

-- =============================================================================
-- DomainDistance value object (src/unnamed/part_003)
-- =============================================================================

/-- `DomainDistance`: clamped scalar in [0,1]. -/
structure DomainDistance where
  value : ℚ
deriving Repr, DecidableEq

namespace DomainDistance

/-- The private TS constructor `new DomainDistance(value)`. -/
def mk' (v : ℚ) : DomainDistance := ⟨jsClamp01 v⟩

/-- `DomainDistance.fromTagJaccard(tags1, tags2)`: both lists empty → 1.0;
otherwise build JS `Set`s, count the intersection over set1, compute
`union = set1.size + set2.size - intersection`; union 0 → 1.0; otherwise
`1 - intersection/union`. -/
def fromTagJaccard (tags1 tags2 : List String) : DomainDistance :=
  if tags1.length = 0 ∧ tags2.length = 0 then
    mk' 1
  else
    let set1 := tags1.toFinset
    let set2 := tags2.toFinset
    let intersection := (set1 ∩ set2).card
    let union := set1.card + set2.card - intersection
    if union = 0 then
      mk' 1
    else
      let similarity : ℚ := (intersection : ℚ) / (union : ℚ)
      mk' (1 - similarity)

/-- `DomainDistance.fromValue`. -/
def fromValue (v : ℚ) : DomainDistance := mk' v

end DomainDistance

-- =============================================================================
-- NoteDomain entity and CrossDomainConnection
-- (src/src/core/domain/interfaces/domain-classifier.ts part 2,
--  src/src/core/domain/entities/cross-domain-connection.ts)
-- =============================================================================

/-- `NoteDomain`: one classified corpus item. -/
structure NoteDomain where
  noteId : String
  path : String
  title : String
  primaryDomain : String
  secondaryDomains : List String
  tags : List String
  embedding : Option (List ℚ)
deriving Repr, DecidableEq

/-- `ConnectionType`. -/
inductive ConnectionType where
  | unexpected_similarity
  | bridging_concept
  | analogical
  | contrasting
deriving Repr, DecidableEq

/-- `inferConnectionType(similarity, domainDistanceValue)`: fixed cascade,
first match wins. -/
def inferConnectionType (similarity domainDistanceValue : ℚ) : ConnectionType :=
  if similarity > 8/10 ∧ domainDistanceValue > 8/10 then .unexpected_similarity
  else if similarity > 6/10 ∧ domainDistanceValue > 5/10 then .bridging_concept
  else if similarity < 5/10 ∧ domainDistanceValue > 7/10 then .contrasting
  else .analogical

/-- `CrossDomainConnection`.  `discoveredAt : Date` is modelled as the
timestamp string it serializes to. -/
structure CrossDomainConnection where
  sourceNote : NoteDomain
  targetNote : NoteDomain
  serendipityScore : SerendipityScore
  domainDistance : DomainDistance
  similarity : ℚ
  connectionType : ConnectionType
  analogy : Option String
  discoveredAt : String
deriving Repr, DecidableEq

-- =============================================================================
-- Cache serialization and hydration (src/unnamed/part_000)
-- =============================================================================

/-- The plain JSON form of a score object: only the raw numeric `value` is
stored. -/
structure PlainScoreObj where
  value : ℚ
deriving Repr, DecidableEq

/-- The plain JSON form of a cached connection: score objects survive as
`{value: number}` records (possibly absent in hand-written data, hence
`Option`). -/
structure PlainConnection where
  sourceNote : NoteDomain
  targetNote : NoteDomain
  serendipityScore : Option PlainScoreObj
  domainDistance : Option PlainScoreObj
  similarity : ℚ
  connectionType : ConnectionType
  analogy : Option String
  discoveredAt : String
deriving Repr, DecidableEq

/-- JSON serialization of a `CrossDomainConnection`: each score object
serializes to just its `value` field. -/
def serializeConnection (c : CrossDomainConnection) : PlainConnection where
  sourceNote := c.sourceNote
  targetNote := c.targetNote
  serendipityScore := some ⟨c.serendipityScore.value⟩
  domainDistance := some ⟨c.domainDistance.value⟩
  similarity := c.similarity
  connectionType := c.connectionType
  analogy := c.analogy
  discoveredAt := c.discoveredAt

/-- `hydrateConnection(plain)`: reads `plain.serendipityScore?.value ?? 0` and
`plain.domainDistance?.value ?? 0` and rebuilds the value objects through
`fromValue`; the `Date` round-trips through its string. -/
def hydrateConnection (plain : PlainConnection) : CrossDomainConnection where
  sourceNote := plain.sourceNote
  targetNote := plain.targetNote
  serendipityScore :=
    SerendipityScore.fromValue ((plain.serendipityScore.map (·.value)).getD 0)
  domainDistance :=
    DomainDistance.fromValue ((plain.domainDistance.map (·.value)).getD 0)
  similarity := plain.similarity
  connectionType := plain.connectionType
  analogy := plain.analogy
  discoveredAt := plain.discoveredAt

-- =============================================================================
-- Cosine similarity (src/src/core/application/use-cases/discover-connections.ts
-- lines 228-247).  Generic in the scalar field and in the square-root
-- function so the same translation serves the rational engine model and the
-- real-number analysis; `Math.sqrt` is `Real.sqrt` at type ℝ.
-- =============================================================================

/-- `cosineSimilarity(a, b)`: throws (`Except.error`) when the lengths differ;
otherwise `dotProduct / (sq normA * sq normB)` where `dotProduct` is the sum
of pointwise products of `a` and `b` and `normA`, `normB` the sums of squared
entries, with 0 when the denominator `sq normA * sq normB` is 0. -/
def cosineSimilarity {α : Type} [LinearOrderedField α] [DecidableEq α]
    (sq : α → α) (a b : List α) : Except String α :=
  if a.length ≠ b.length then
    .error "Vectors must have same length"
  else
    if sq (List.zipWith (fun x y => x * y) a a).sum *
        sq (List.zipWith (fun x y => x * y) b b).sum = 0 then .ok 0
    else .ok ((List.zipWith (fun x y => x * y) a b).sum /
      (sq (List.zipWith (fun x y => x * y) a a).sum *
        sq (List.zipWith (fun x y => x * y) b b).sum))

-- =============================================================================
-- Deep-mode LLM response parsing
-- (src/src/core/adapters/obsidian/vault-adapter.ts lines 642-672).
-- Strings are handled as char lists; `parseFloat` returning NaN is `none`.
-- =============================================================================

/-- JS `content.split(c)` on a single separator char: splits into chunks,
keeping empty chunks. -/
def jsSplitOnChar (c : Char) : List Char → List (List Char)
  | [] => [[]]
  | x :: xs =>
    match jsSplitOnChar c xs with
    | [] => [[x]]
    | h :: t => if x = c then [] :: h :: t else (x :: h) :: t

/-- JS `s.trim()`: drop whitespace from both ends. -/
def jsTrim (s : List Char) : List Char :=
  ((s.dropWhile Char.isWhitespace).reverse.dropWhile Char.isWhitespace).reverse

/-- JS `s.indexOf(pat)` for a nonempty pattern: index of the first occurrence,
`none` when absent. -/
def firstIdx (pat : List Char) : List Char → Option ℕ
  | [] => if pat.isPrefixOf [] then some 0 else none
  | x :: xs =>
    if pat.isPrefixOf (x :: xs) then some 0
    else (firstIdx pat xs).map (· + 1)

/-- The character class of the regex `[\d.]`. -/
def isDigitDot (c : Char) : Bool := c.isDigit || c = '.'

/-- JS `s.match(/[\d.]+/)`: the first maximal run of digits and dots. -/
def firstDigitRun : List Char → Option (List Char)
  | [] => none
  | c :: rest =>
    if isDigitDot c then some (c :: rest.takeWhile isDigitDot)
    else firstDigitRun rest

/-- Digit characters to a natural number. -/
def digitsToNat (ds : List Char) : ℕ :=
  ds.foldl (fun n c => 10 * n + (c.toNat - 48)) 0

/-- JS `parseFloat` on a string matched by `[\d.]+`: an integer part, then an
optional fraction after the first dot; anything after a second dot is ignored.
A match with no digit before the terminating dot (such as `"."`) is NaN,
modelled as `none`. -/
def jsParseFloatRun (s : List Char) : Option ℚ :=
  let intPart := s.takeWhile Char.isDigit
  let rest := s.dropWhile Char.isDigit
  let fracPart :=
    match rest with
    | '.' :: r => r.takeWhile Char.isDigit
    | _ => []
  if intPart = [] ∧ fracPart = [] then none
  else some ((digitsToNat intPart : ℚ) + (digitsToNat fracPart : ℚ) / (10 ^ fracPart.length))

/-- JS `Math.min(1.0, Math.max(0, x))` on a possibly-NaN number: NaN
propagates. -/
def jsClampQuality (x : Option ℚ) : Option ℚ :=
  x.map (fun v => min 1 (max 0 v))

/-- JS `s.replace(pat, '')` with a string pattern: removes the first
occurrence only. -/
def replaceFirstWithEmpty (pat s : List Char) : List Char :=
  match firstIdx pat s with
  | some i => s.take i ++ s.drop (i + pat.length)
  | none => s

/-- `LLMEvaluationResult`: the JS number `qualityScore` may be NaN (`none`). -/
structure LLMEvaluationResult where
  connectionPossible : Bool
  qualityScore : Option ℚ
  analogy : String
deriving Repr, DecidableEq

/-- One iteration of the parsing loop over a raw line. -/
def parseStep (st : LLMEvaluationResult) (line : List Char) : LLMEvaluationResult :=
  let trimmed := jsTrim line
  if ("CONNECTION_POSSIBLE:".toList).isPrefixOf trimmed then
    { st with connectionPossible := listIncludes trimmed "YES".toList }
  else if ("QUALITY_SCORE:".toList).isPrefixOf trimmed then
    match firstDigitRun trimmed with
    | some m => { st with qualityScore := jsClampQuality (jsParseFloatRun m) }
    | none => st
  else if ("ANALOGY:".toList).isPrefixOf trimmed then
    { st with analogy := String.mk (jsTrim (replaceFirstWithEmpty "ANALOGY:".toList trimmed)) }
  else st

/-- `parseEvaluationResponse(content)`: line loop, then the multi-line ANALOGY
fallback via `content.indexOf('ANALOGY:')` when no line set a non-empty
analogy. -/
def parseEvaluationResponse (content : String) : LLMEvaluationResult :=
  let cs := content.toList
  let lines := jsSplitOnChar '\n' cs
  let st := lines.foldl parseStep ⟨false, some 0, ""⟩
  if st.analogy = "" then
    match firstIdx "ANALOGY:".toList cs with
    | some i => { st with analogy := String.mk (jsTrim (cs.drop (i + 8))) }
    | none => st
  else st

-- =============================================================================
-- Standard Discovery Engine
-- (src/src/core/application/use-cases/discover-connections.ts)
-- =============================================================================

/-- The `GENERIC_TERMS` list. -/
def GENERIC_TERMS : List String :=
  ["note", "idea", "concept", "thought", "노트", "아이디어", "개념", "생각",
   "summary", "overview", "요약", "개요"]

/-- JS `s.toLowerCase()` (ASCII case only; the Korean terms are caseless in
both systems). -/
def jsToLower (s : String) : String := String.mk (s.toList.map Char.toLower)

/-- `countGenericTerms(note)`: substring hits of each generic term in the
lowered title, plus hits in each lowered tag. -/
def countGenericTerms (note : NoteDomain) : ℕ :=
  let titleLower := jsToLower note.title
  let fromTitle :=
    (GENERIC_TERMS.filter (fun term => strIncludes titleLower (jsToLower term))).length
  let fromTags :=
    (note.tags.map (fun tag =>
      let tagLower := jsToLower tag
      (GENERIC_TERMS.filter (fun term => strIncludes tagLower (jsToLower term))).length)).sum
  fromTitle + fromTags

/-- `isIncludedPath(path)`: empty include list admits everything; otherwise
the lowered path must start with some lowered folder followed by `/`. -/
def isIncludedPath (includeFolders : List String) (path : String) : Bool :=
  if includeFolders.length = 0 then true
  else
    let pathLower := jsToLower path
    includeFolders.any (fun folder => strStarts pathLower (jsToLower folder ++ "/"))

/-- `isExcludedPath(path)`. -/
def isExcludedPath (excludeFolders : List String) (path : String) : Bool :=
  let pathLower := jsToLower path
  excludeFolders.any (fun folder => strStarts pathLower (jsToLower folder ++ "/"))

/-- `ConnectionAnalysisOptions`. -/
structure ConnectionAnalysisOptions where
  minSimilarity : ℚ
  minSerendipityScore : ℚ
  maxResults : ℕ
  excludeFolders : List String
  includeFolders : List String
  linkChecker : Option (String → String → Bool)

/-- What the classification service computes for a note, apart from the
caller-supplied id and embedding.  The service is an injected collaborator of
the use case. -/
structure ClassifyInfo where
  path : String
  title : String
  primaryDomain : String
  secondaryDomains : List String
  tags : List String

/-- The injected collaborators and options of `DiscoverConnectionsUseCase`,
plus `Math.sqrt` as an explicit function and the `new Date()` timestamp. -/
structure DiscoverCtx where
  sourceNoteId : String
  getEmbedding : String → Option (List ℚ)
  allEmbeddings : List (String × List ℚ)
  classifyData : String → Except String ClassifyInfo
  pathOf : String → Option String
  options : ConnectionAnalysisOptions
  sq : ℚ → ℚ
  now : String

/-- `classificationService.classifyNote(noteId, embedding)` as seen from the
engine: the returned `NoteDomain` carries the queried id and the passed
embedding. -/
def ctxClassifyNote (ctx : DiscoverCtx) (noteId : String) (emb : List ℚ) :
    Except String NoteDomain :=
  (ctx.classifyData noteId).map fun info =>
    ⟨noteId, info.path, info.title, info.primaryDomain,
     info.secondaryDomains, info.tags, some emb⟩

/-- `isAlreadyLinked(path1, path2)`: defer to the optional link checker. -/
def ctxIsAlreadyLinked (ctx : DiscoverCtx) (path1 path2 : String) : Bool :=
  match ctx.options.linkChecker with
  | some f => f path1 path2
  | none => false

/-- The body of the per-candidate `try` block (steps 5-12 of `execute`):
classify the target, skip same-domain, cosine similarity (which can throw),
similarity threshold, tag-Jaccard distance, serendipity score and threshold,
and the emitted connection.  `.ok none` is a skip, `.error` a thrown
exception. -/
def tryCandidate (ctx : DiscoverCtx) (src : NoteDomain) (sourceEmb : List ℚ)
    (targetNoteId : String) (targetEmb : List ℚ) :
    Except String (Option CrossDomainConnection) :=
  match ctxClassifyNote ctx targetNoteId targetEmb with
  | .error e => .error e
  | .ok tgt =>
    if src.primaryDomain = tgt.primaryDomain then .ok none
    else
      match cosineSimilarity ctx.sq sourceEmb targetEmb with
      | .error e => .error e
      | .ok similarity =>
        if similarity < ctx.options.minSimilarity then .ok none
        else
          let domainDistance := DomainDistance.fromTagJaccard src.tags tgt.tags
          let serendipityScore := SerendipityScore.calculate
            ⟨similarity, domainDistance.value, false, countGenericTerms tgt⟩
          if serendipityScore.value < ctx.options.minSerendipityScore then .ok none
          else .ok (some
            ⟨src, tgt, serendipityScore, domainDistance, similarity,
             inferConnectionType similarity domainDistance.value, none, ctx.now⟩)

/-- One iteration of the scan loop of `execute`: the skip chain (self, folder
filters, already-linked), then the `try` block whose exceptions are caught and
turn into a skip. -/
def processCandidate (ctx : DiscoverCtx) (src : NoteDomain) (sourceEmb : List ℚ)
    (cand : String × List ℚ) : Option CrossDomainConnection :=
  if cand.1 = ctx.sourceNoteId then none
  else
    let skipByPath :=
      match ctx.pathOf cand.1 with
      | some targetPath =>
        !isIncludedPath ctx.options.includeFolders targetPath ||
          isExcludedPath ctx.options.excludeFolders targetPath
      | none => false
    if skipByPath then none
    else
      let alreadyLinked :=
        match ctx.pathOf ctx.sourceNoteId, ctx.pathOf cand.1 with
        | some sp, some tp => ctxIsAlreadyLinked ctx sp tp
        | _, _ => false
      if alreadyLinked then none
      else
        match tryCandidate ctx src sourceEmb cand.1 cand.2 with
        | .error _ => none
        | .ok r => r

/-- The final `sort((a, b) => b.serendipityScore.value - a.serendipityScore.value)`:
descending by score. -/
def sortConnections (l : List CrossDomainConnection) : List CrossDomainConnection :=
  l.mergeSort (fun a b => decide (b.serendipityScore.value ≤ a.serendipityScore.value))

/-- `DiscoverConnectionsUseCase.execute(sourceNoteId)`: absent source
embedding returns `[]`; source classification failure propagates (it is
awaited outside any `try`); each candidate is processed by the caught loop
body; survivors are sorted by score and truncated to `maxResults`. -/
def discoverExecute (ctx : DiscoverCtx) : Except String (List CrossDomainConnection) :=
  match ctx.getEmbedding ctx.sourceNoteId with
  | none => .ok []
  | some sourceEmb =>
    match ctxClassifyNote ctx ctx.sourceNoteId sourceEmb with
    | .error e => .error e
    | .ok src =>
      let candidates := ctx.allEmbeddings.filterMap (processCandidate ctx src sourceEmb)
      .ok ((sortConnections candidates).take ctx.options.maxResults)

-- =============================================================================
-- Deep (LLM-first) Discovery Engine
-- (src/src/core/adapters/obsidian/vault-adapter.ts, DeepSerendipityUseCase)
-- =============================================================================

/-- A sampled cross-domain candidate pair. -/
structure DeepPair where
  source : NoteDomain
  target : NoteDomain
  domainDistance : ℚ
deriving Repr, DecidableEq

/-- `DeepSerendipityConnection`; `creativityScore` is a JS number that could
in principle be NaN, hence `Option ℚ`. -/
structure DeepSerendipityConnection where
  sourceNote : NoteDomain
  targetNote : NoteDomain
  creativityScore : Option ℚ
  analogy : String
  domainDistance : ℚ
  discoveredAt : String
deriving Repr, DecidableEq

/-- Injected collaborators and options of `DeepSerendipityUseCase`.  `sample`
models the `Math.random`-driven `sampleArray`, `shufflePairs` the
`sort(() => Math.random() - 0.5)` shuffle, and `evalLLM` the AI service round
trip (`none` = failed or thrown request, `some content` = successful
response text). -/
structure DeepCtx where
  allEmbeddings : List (String × List ℚ)
  pathOf : String → Option String
  classifyData : String → Except String ClassifyInfo
  evalLLM : NoteDomain → NoteDomain → Option String
  maxPairsToEvaluate : ℕ
  minQualityScore : ℚ
  maxResults : ℕ
  includeFolders : List String
  excludeFolders : List String
  sample : List NoteDomain → ℕ → List NoteDomain
  shufflePairs : List DeepPair → List DeepPair
  now : String

/-- The classification service call as seen from the Deep engine. -/
def deepClassifyNote (ctx : DeepCtx) (noteId : String) (emb : List ℚ) :
    Except String NoteDomain :=
  (ctx.classifyData noteId).map fun info =>
    ⟨noteId, info.path, info.title, info.primaryDomain,
     info.secondaryDomains, info.tags, some emb⟩

/-- `domainGroups` update: push onto the existing domain entry or append a
fresh one (JS `Map` insertion order). -/
def addToGroups (groups : List (String × List NoteDomain)) (d : String)
    (nd : NoteDomain) : List (String × List NoteDomain) :=
  match groups with
  | [] => [(d, [nd])]
  | (k, v) :: t => if k = d then (k, v ++ [nd]) :: t else (k, v) :: addToGroups t d nd

/-- `groupNotesByDomain(embeddings)`: per note — path lookup, folder filters,
classification (failures skipped) — grouped by primary domain. -/
def groupNotesByDomain (ctx : DeepCtx) : List (String × List NoteDomain) :=
  ctx.allEmbeddings.foldl (fun groups cand =>
    match ctx.pathOf cand.1 with
    | none => groups
    | some path =>
      if !isIncludedPath ctx.includeFolders path ||
          isExcludedPath ctx.excludeFolders path then groups
      else
        match deepClassifyNote ctx cand.1 cand.2 with
        | .error _ => groups
        | .ok nd => addToGroups groups nd.primaryDomain nd) []

/-- The inner double loop over two sampled note lists: the full cross
product, every pair tagged with the constant `domainDistance = 1.0`. -/
def crossPairs (notes1 notes2 : List NoteDomain) : List DeepPair :=
  notes1.flatMap (fun n1 => notes2.map (fun n2 => ⟨n1, n2, 1⟩))

/-- The `i < j` double loop of `sampleCrossDomainPairs` over the domain
groups, sampling up to 3 notes from each side. -/
def pairsFromGroups (ctx : DeepCtx) :
    List (String × List NoteDomain) → List DeepPair
  | [] => []
  | g :: rest =>
    (rest.flatMap (fun g2 => crossPairs (ctx.sample g.2 3) (ctx.sample g2.2 3))) ++
      pairsFromGroups ctx rest

/-- `sampleCrossDomainPairs(domainGroups)`: fewer than two domains → `[]`;
otherwise all cross-domain sampled pairs, shuffled and truncated to the
`maxPairsToEvaluate` budget. -/
def sampleCrossDomainPairs (ctx : DeepCtx)
    (domainGroups : List (String × List NoteDomain)) : List DeepPair :=
  if domainGroups.length < 2 then []
  else (ctx.shufflePairs (pairsFromGroups ctx domainGroups)).take ctx.maxPairsToEvaluate

/-- `evaluateSinglePair`: a failed AI response yields
`{connectionPossible: false, qualityScore: 0, analogy: ''}`, a successful one
is parsed. -/
def evaluateSinglePair (ctx : DeepCtx) (src tgt : NoteDomain) : LLMEvaluationResult :=
  match ctx.evalLLM src tgt with
  | none => ⟨false, some 0, ""⟩
  | some content => parseEvaluationResponse content

/-- JS `x > 0` on a possibly-NaN number (NaN compares false). -/
def jsGtZero : Option ℚ → Bool
  | none => false
  | some q => decide (0 < q)

/-- JS `x >= m` on a possibly-NaN number (NaN compares false). -/
def jsGe (x : Option ℚ) (m : ℚ) : Bool :=
  match x with
  | none => false
  | some q => decide (m ≤ q)

/-- `evaluatePairsWithLLM(pairs)`: evaluate each pair; keep it when the flag
is affirmative and the quality score is positive; failures drop the pair. -/
def evaluatePairsWithLLM (ctx : DeepCtx) (pairs : List DeepPair) :
    List DeepSerendipityConnection :=
  pairs.filterMap (fun pair =>
    let evaluation := evaluateSinglePair ctx pair.source pair.target
    if evaluation.connectionPossible && jsGtZero evaluation.qualityScore then
      some ⟨pair.source, pair.target, evaluation.qualityScore, evaluation.analogy,
            pair.domainDistance, ctx.now⟩
    else none)

/-- The final `sort((a, b) => b.creativityScore - a.creativityScore)`. -/
def sortDeepConnections (l : List DeepSerendipityConnection) :
    List DeepSerendipityConnection :=
  l.mergeSort (fun a b =>
    match a.creativityScore, b.creativityScore with
    | some x, some y => decide (y ≤ x)
    | _, _ => true)

/-- `DeepSerendipityUseCase.execute()`: group by domain, sample cross-domain
pairs, evaluate with the LLM, filter by the minimum quality threshold, sort
descending, truncate to `maxResults`. -/
def deepExecute (ctx : DeepCtx) : List DeepSerendipityConnection :=
  let domainGroups := groupNotesByDomain ctx
  let candidatePairs := sampleCrossDomainPairs ctx domainGroups
  if candidatePairs.length = 0 then []
  else
    let evaluatedConnections := evaluatePairsWithLLM ctx candidatePairs
    ((sortDeepConnections (evaluatedConnections.filter
        (fun conn => jsGe conn.creativityScore ctx.minQualityScore))).take
      ctx.maxResults)

-- =============================================================================
-- DomainClassificationService (src/unnamed/part_005)
-- =============================================================================

/-- `ClassificationMethod`. -/
inductive ClassificationMethod where
  | tag
  | folder
  | cluster
deriving Repr, DecidableEq

/-- What the vault exposes for one note: its path, basename and raw metadata
tags (as stored, possibly with a leading `#`). -/
structure ClassifierFile where
  path : String
  basename : String
  metadataTags : List String

/-- The classifier's collaborators and settings: `lookupFile` models
`getFileByNoteId` together with `getMetadata`. -/
structure ClassifierCtx where
  lookupFile : String → Option ClassifierFile
  method : ClassificationMethod
  domainTagStarts : List String

/-- `t.tag.replace(/^#/, '')`: strip one leading hash. -/
def stripLeadingHash (s : String) : String :=
  match s.toList with
  | '#' :: r => String.mk r
  | _ => s

/-- JS `a || b` for a nullable string `a`: `null` and `''` both fall through
to `b`. -/
def jsOrString (a : Option String) (b : String) : String :=
  match a with
  | some s => if s = "" then b else s
  | none => b

/-- `inferDomainFromTags(tags)`: first configured domain-tag start whose
match exists; the matching tag minus that leading part. -/
def inferDomainFromTags (starts tags : List String) : Option String :=
  starts.findSome? (fun pre =>
    (tags.find? (fun t => strStarts t pre)).map
      (fun t => String.mk (t.toList.drop pre.toList.length)))

/-- `/^\d+_/.test(s)`: one or more digits then an underscore. -/
def startsWithDigitsUnderscore (s : String) : Bool :=
  let cs := s.toList
  let ds := cs.takeWhile Char.isDigit
  decide (ds ≠ []) &&
    (match cs.drop ds.length with
     | '_' :: _ => true
     | _ => false)

/-- `inferDomainFromPath(path)`: first path segment, skipping a leading
numeric-organizer folder when a deeper segment exists; `'root'` for a
segment-poor path. -/
def inferDomainFromPath (path : String) : String :=
  let parts := path.splitOn "/"
  match parts with
  | p0 :: p1 :: rest =>
    if startsWithDigitsUnderscore p0 ∧ rest ≠ [] then p1 else p0
  | _ => "root"

/-- `extractSecondaryDomains(tags, primaryDomain)`: domain labels derived
from matching tags, skipping the primary and already-collected labels. -/
def extractSecondaryDomains (starts tags : List String) (primaryDomain : String) :
    List String :=
  starts.foldl (fun acc pre =>
    (tags.filter (fun t => strStarts t pre)).foldl (fun acc tag =>
      let domain := String.mk (tag.toList.drop pre.toList.length)
      if domain ≠ primaryDomain ∧ ¬ acc.contains domain then acc ++ [domain]
      else acc) acc) []

/-- `DomainClassificationService.classifyNote(noteId, embedding)`. -/
def classifierClassifyNote (ctx : ClassifierCtx) (noteId : String)
    (embedding : Option (List ℚ)) : Except String NoteDomain :=
  match ctx.lookupFile noteId with
  | none => .error ("Note not found: " ++ noteId)
  | some file =>
    let tags := file.metadataTags.map stripLeadingHash
    let primaryDomain :=
      match ctx.method with
      | .tag => jsOrString (inferDomainFromTags ctx.domainTagStarts tags)
          (inferDomainFromPath file.path)
      | .folder => inferDomainFromPath file.path
      | .cluster => "cluster_" ++ noteId
    .ok ⟨noteId, file.path, file.basename, primaryDomain,
         extractSecondaryDomains ctx.domainTagStarts tags primaryDomain,
         tags, embedding⟩


-- =============================================================================
-- Theorems
-- =============================================================================

/-- C1: `SerendipityScore.calculate` returns
`base * noveltyPenalty * specificityPenalty` clamped into [0,1], with
`base = 0.4*similarity + 0.6*domainDistance`,
`noveltyPenalty = 0.5` when already linked else `1`, and
`specificityPenalty = max(0.3, 1 - genericTermsCount*0.15)`; and with no
penalties and inputs in [0,1] the result is exactly `0.4s + 0.6d`. -/
theorem serendipity_calculate_spec (p : SerendipityScoreParams) :
    (SerendipityScore.calculate p).value =
      jsClamp01 ((p.similarity * (4/10) + p.domainDistance * (6/10)) *
        (if p.isAlreadyLinked then (1:ℚ)/2 else 1) *
        max (3/10) (1 - (p.genericTermsCount : ℚ) * (15/100))) ∧
    (p.isAlreadyLinked = false → p.genericTermsCount = 0 →
      0 ≤ p.similarity → p.similarity ≤ 1 →
      0 ≤ p.domainDistance → p.domainDistance ≤ 1 →
      (SerendipityScore.calculate p).value =
        (4/10) * p.similarity + (6/10) * p.domainDistance) := by
  refine ⟨rfl, fun hlink hcount hs0 hs1 hd0 hd1 => ?_⟩
  have hb0 : (0:ℚ) ≤ p.similarity * (4/10) + p.domainDistance * (6/10) := by nlinarith
  have hb1 : p.similarity * (4/10) + p.domainDistance * (6/10) ≤ 1 := by nlinarith
  have hmax : max ((3:ℚ)/10) (1 - (0:ℚ) * (15/100)) = 1 := by
    rw [max_eq_right] <;> norm_num
  simp only [SerendipityScore.calculate, SerendipityScore.mk', hlink, hcount, Nat.cast_zero,
    Bool.false_eq_true, if_false, hmax, mul_one, jsClamp01]
  rw [min_eq_right hb1, max_eq_right hb0]
  ring

/-- Witness for C1 at similarity 0.5, distance 0.5, no penalties. -/
theorem serendipity_calculate_spec_witness :
    (SerendipityScore.calculate ⟨1/2, 1/2, false, 0⟩).value = (4/10) * (1/2) + (6/10) * (1/2) :=
  (serendipity_calculate_spec ⟨1/2, 1/2, false, 0⟩).2 rfl rfl (by norm_num) (by norm_num)
    (by norm_num) (by norm_num)

/-- C7: `getLevel` is `high` iff value ≥ 0.7, `medium` iff value ∈ [0.4, 0.7),
`low` iff value < 0.4; in particular 0.7 is high and 0.4 is medium. -/
theorem getLevel_spec :
    (∀ s : SerendipityScore,
      (s.getLevel = .high ↔ (7:ℚ)/10 ≤ s.value) ∧
      (s.getLevel = .medium ↔ (4:ℚ)/10 ≤ s.value ∧ s.value < 7/10) ∧
      (s.getLevel = .low ↔ s.value < (4:ℚ)/10)) ∧
    (SerendipityScore.fromValue (7/10)).getLevel = .high ∧
    (SerendipityScore.fromValue (4/10)).getLevel = .medium := by
  have main : ∀ s : SerendipityScore,
      (s.getLevel = .high ↔ (7:ℚ)/10 ≤ s.value) ∧
      (s.getLevel = .medium ↔ (4:ℚ)/10 ≤ s.value ∧ s.value < 7/10) ∧
      (s.getLevel = .low ↔ s.value < (4:ℚ)/10) := by
    intro s
    simp only [SerendipityScore.getLevel, SerendipityScore.isHighSerendipity,
      SerendipityScore.isMediumSerendipity, SerendipityScore.isLowSerendipity,
      Bool.and_eq_true, decide_eq_true_eq]
    by_cases h7 : (7:ℚ)/10 ≤ s.value
    · have h4 : ¬ s.value < (4:ℚ)/10 := by linarith
      have hm : ¬ ((4:ℚ)/10 ≤ s.value ∧ s.value < 7/10) := by
        rintro ⟨_, hlt⟩; linarith
      simp [h7, h4, hm]
    · by_cases h4 : (4:ℚ)/10 ≤ s.value
      · have hlt : s.value < (7:ℚ)/10 := not_le.mp h7
        simp [h7, h4, hlt]
      · have hlow : s.value < (4:ℚ)/10 := not_le.mp h4
        have hm : ¬ ((4:ℚ)/10 ≤ s.value ∧ s.value < 7/10) := by
          rintro ⟨hge, _⟩; exact h4 hge
        simp [h7, h4, hm, hlow]
  have h07 : SerendipityScore.fromValue ((7:ℚ)/10) = ⟨7/10⟩ := by
    simp only [SerendipityScore.fromValue, SerendipityScore.mk', jsClamp01]
    congr 1
    rw [min_eq_right (by norm_num : (7:ℚ)/10 ≤ 1), max_eq_right (by norm_num : (0:ℚ) ≤ 7/10)]
  have h04 : SerendipityScore.fromValue ((4:ℚ)/10) = ⟨4/10⟩ := by
    simp only [SerendipityScore.fromValue, SerendipityScore.mk', jsClamp01]
    congr 1
    rw [min_eq_right (by norm_num : (4:ℚ)/10 ≤ 1), max_eq_right (by norm_num : (0:ℚ) ≤ 4/10)]
  refine ⟨main, ?_, ?_⟩
  · rw [h07]
    exact (main ⟨7/10⟩).1.mpr (by norm_num)
  · rw [h04]
    exact (main ⟨4/10⟩).2.1.mpr ⟨by norm_num, by norm_num⟩

/-- C6: `fromTagJaccard` on two empty lists is 1; on a nonempty list against
itself it is 0; otherwise it is `1 - |inter| / |union|` over the deduplicated
tag sets, and 1 when the union is empty. -/
theorem fromTagJaccard_spec :
    (DomainDistance.fromTagJaccard [] []).value = 1 ∧
    (∀ X : List String, X ≠ [] → (DomainDistance.fromTagJaccard X X).value = 0) ∧
    (∀ A B : List String, ¬(A = [] ∧ B = []) →
      (DomainDistance.fromTagJaccard A B).value =
        if (A.toFinset ∪ B.toFinset).card = 0 then 1
        else 1 - ((A.toFinset ∩ B.toFinset).card : ℚ) /
          ((A.toFinset ∪ B.toFinset).card : ℚ)) := by
  have hclamp1 : jsClamp01 1 = 1 := by
    rw [jsClamp01, min_self, max_eq_right (by norm_num : (0:ℚ) ≤ 1)]
  have hunion : ∀ A B : List String,
      A.toFinset.card + B.toFinset.card - (A.toFinset ∩ B.toFinset).card =
        (A.toFinset ∪ B.toFinset).card := by
    intro A B
    have := Finset.card_union_add_card_inter A.toFinset B.toFinset
    omega
  have hmain : ∀ A B : List String, ¬(A = [] ∧ B = []) →
      (DomainDistance.fromTagJaccard A B).value =
        if (A.toFinset ∪ B.toFinset).card = 0 then 1
        else 1 - ((A.toFinset ∩ B.toFinset).card : ℚ) /
          ((A.toFinset ∪ B.toFinset).card : ℚ) := by
    intro A B hne
    have hlen : ¬(A.length = 0 ∧ B.length = 0) := by
      simp only [List.length_eq_zero]
      exact hne
    rw [DomainDistance.fromTagJaccard, if_neg hlen]
    simp only [hunion A B]
    by_cases hu : (A.toFinset ∪ B.toFinset).card = 0
    · rw [if_pos hu, if_pos hu, DomainDistance.mk', hclamp1]
    · have hupos : 0 < (A.toFinset ∪ B.toFinset).card := Nat.pos_of_ne_zero hu
      have hsub : (A.toFinset ∩ B.toFinset).card ≤ (A.toFinset ∪ B.toFinset).card :=
        Finset.card_le_card Finset.inter_subset_union
      have hratio0 : (0:ℚ) ≤ ((A.toFinset ∩ B.toFinset).card : ℚ) /
          ((A.toFinset ∪ B.toFinset).card : ℚ) := by positivity
      have hratio1 : ((A.toFinset ∩ B.toFinset).card : ℚ) /
          ((A.toFinset ∪ B.toFinset).card : ℚ) ≤ 1 := by
        rw [div_le_one (by exact_mod_cast hupos)]
        exact_mod_cast hsub
      rw [if_neg hu, if_neg hu, DomainDistance.mk', jsClamp01]
      rw [min_eq_right (by linarith), max_eq_right (by linarith)]
  have hempty : (DomainDistance.fromTagJaccard [] []).value = 1 := by
    rw [DomainDistance.fromTagJaccard, if_pos (by simp), DomainDistance.mk', hclamp1]
  refine ⟨hempty, fun X hX => ?_, hmain⟩
  have hne : ¬(X = [] ∧ X = []) := fun h => hX h.1
  rw [hmain X X hne]
  have hXcard : 0 < X.toFinset.card := by
    rcases X with _ | ⟨x, xs⟩
    · exact absurd rfl hX
    · exact Finset.card_pos.mpr ⟨x, by simp⟩
  rw [Finset.union_self, Finset.inter_self]
  rw [if_neg (by omega)]
  rw [div_self (by exact_mod_cast hXcard.ne')]
  ring

/-- Witness for C6 at X = [a] and (A, B) = ([a], [b]). -/
theorem fromTagJaccard_spec_witness :
    (DomainDistance.fromTagJaccard ["a"] ["a"]).value = 0 ∧
    (DomainDistance.fromTagJaccard ["a"] ["b"]).value =
      (if ((["a"] : List String).toFinset ∪ (["b"] : List String).toFinset).card = 0 then (1:ℚ)
       else 1 - (((["a"] : List String).toFinset ∩ (["b"] : List String).toFinset).card : ℚ) /
         (((["a"] : List String).toFinset ∪ (["b"] : List String).toFinset).card : ℚ)) :=
  ⟨fromTagJaccard_spec.2.1 ["a"] (by decide),
   fromTagJaccard_spec.2.2 ["a"] ["b"] (by decide)⟩

/-- C5: serializing a connection to the plain cache form and hydrating it
back preserves the serendipity-score and domain-distance values exactly when
they lie in [0,1]. -/
theorem hydrate_roundtrip (c : CrossDomainConnection)
    (h1 : 0 ≤ c.serendipityScore.value) (h2 : c.serendipityScore.value ≤ 1)
    (h3 : 0 ≤ c.domainDistance.value) (h4 : c.domainDistance.value ≤ 1) :
    (hydrateConnection (serializeConnection c)).serendipityScore.value =
      c.serendipityScore.value ∧
    (hydrateConnection (serializeConnection c)).domainDistance.value =
      c.domainDistance.value := by
  simp only [hydrateConnection, serializeConnection, SerendipityScore.fromValue,
    DomainDistance.fromValue, SerendipityScore.mk', DomainDistance.mk', Option.map_some',
    Option.getD_some, jsClamp01]
  constructor
  · rw [min_eq_right h2, max_eq_right h1]
  · rw [min_eq_right h4, max_eq_right h3]

/-- Witness for C5 at a concrete connection with score 0.6 and distance 0.5. -/
theorem hydrate_roundtrip_witness :
    (hydrateConnection (serializeConnection
      ⟨⟨"a", "pa", "ta", "phil", [], [], none⟩, ⟨"b", "pb", "tb", "bio", [], [], none⟩,
       ⟨6/10⟩, ⟨1/2⟩, 9/10, .bridging_concept, none, "t0"⟩)).serendipityScore.value = 6/10 ∧
    (hydrateConnection (serializeConnection
      ⟨⟨"a", "pa", "ta", "phil", [], [], none⟩, ⟨"b", "pb", "tb", "bio", [], [], none⟩,
       ⟨6/10⟩, ⟨1/2⟩, 9/10, .bridging_concept, none, "t0"⟩)).domainDistance.value = 1/2 :=
  hydrate_roundtrip
    ⟨⟨"a", "pa", "ta", "phil", [], [], none⟩, ⟨"b", "pb", "tb", "bio", [], [], none⟩,
     ⟨6/10⟩, ⟨1/2⟩, 9/10, .bridging_concept, none, "t0"⟩
    (by norm_num) (by norm_num) (by norm_num) (by norm_num)

/-- Sum of pointwise self-products (the `normA`/`normB` accumulators) is
nonnegative. -/
theorem sumSquares_nonneg (l : List ℝ) :
    0 ≤ (List.zipWith (fun x y => x * y) l l).sum := by
  induction l with
  | nil => simp
  | cons a as ih =>
    simp only [List.zipWith_cons_cons, List.sum_cons]
    nlinarith [mul_self_nonneg a]

/-- Sum of pointwise self-products is positive when some entry is nonzero. -/
theorem sumSquares_pos (l : List ℝ) (h : ∃ x ∈ l, x ≠ 0) :
    0 < (List.zipWith (fun x y => x * y) l l).sum := by
  induction l with
  | nil =>
    rcases h with ⟨x, hx, _⟩
    cases hx
  | cons a as ih =>
    rcases h with ⟨x, hx, hxne⟩
    simp only [List.zipWith_cons_cons, List.sum_cons]
    rcases List.mem_cons.mp hx with rfl | hmem
    · have := sumSquares_nonneg as
      nlinarith [mul_self_pos.mpr hxne]
    · have := ih ⟨x, hmem, hxne⟩
      nlinarith [mul_self_nonneg a]

/-- Sum of pointwise self-products of an all-zero vector is 0. -/
theorem sumSquares_zero (l : List ℝ) (h : ∀ x ∈ l, x = 0) :
    (List.zipWith (fun x y => x * y) l l).sum = 0 := by
  induction l with
  | nil => simp
  | cons a as ih =>
    simp only [List.zipWith_cons_cons, List.sum_cons]
    rw [h a (List.mem_cons_self a as), ih (fun x hx => h x (List.mem_cons_of_mem a hx))]
    ring

/-- C9: `cosineSimilarity` (with `Math.sqrt` as `Real.sqrt`) is symmetric
for equal-length vectors, is 1 on any nonzero vector paired with itself, and
is 0 whenever either vector is all-zero. -/
theorem cosine_spec :
    (∀ a b : List ℝ, a.length = b.length →
      cosineSimilarity Real.sqrt a b = cosineSimilarity Real.sqrt b a) ∧
    (∀ a : List ℝ, (∃ x ∈ a, x ≠ 0) →
      cosineSimilarity Real.sqrt a a = .ok 1) ∧
    (∀ a b : List ℝ, a.length = b.length →
      ((∀ x ∈ a, x = 0) ∨ (∀ x ∈ b, x = 0)) →
      cosineSimilarity Real.sqrt a b = .ok 0) := by
  refine ⟨fun a b hab => ?_, fun a ha => ?_, fun a b hab h0 => ?_⟩
  · have hdp : (List.zipWith (fun x y => x * y) a b).sum =
        (List.zipWith (fun x y => x * y) b a).sum := by
      rw [List.zipWith_comm_of_comm]
      exact fun x y => mul_comm x y
    simp only [cosineSimilarity]
    rw [if_neg (show ¬ a.length ≠ b.length by omega),
      if_neg (show ¬ b.length ≠ a.length by omega), hdp,
      mul_comm (Real.sqrt (List.zipWith (fun x y => x * y) a a).sum)
        (Real.sqrt (List.zipWith (fun x y => x * y) b b).sum)]
  · have hpos := sumSquares_pos a ha
    simp only [cosineSimilarity]
    rw [if_neg (show ¬ a.length ≠ a.length by omega), Real.mul_self_sqrt hpos.le,
      if_neg hpos.ne']
    rw [div_self hpos.ne']
  · simp only [cosineSimilarity]
    rw [if_neg (show ¬ a.length ≠ b.length by omega)]
    rcases h0 with hz | hz
    · rw [sumSquares_zero a hz, Real.sqrt_zero, zero_mul, if_pos rfl]
    · rw [sumSquares_zero b hz, Real.sqrt_zero, mul_zero, if_pos rfl]

/-- Witness for C9 at the one-entry vectors [1] and [0]. -/
theorem cosine_spec_witness :
    cosineSimilarity Real.sqrt [(1:ℝ)] [(1:ℝ)] = .ok 1 ∧
    cosineSimilarity Real.sqrt [(0:ℝ)] [(0:ℝ)] = .ok 0 :=
  ⟨cosine_spec.2.1 [1] ⟨1, by simp, one_ne_zero⟩,
   cosine_spec.2.2 [0] [0] rfl (Or.inl (fun x hx => by simpa using hx))⟩

/-- The quality-score update a single raw line contributes, mirroring the
branch order of the parsing loop: `none` means the line leaves the score
alone, `some q` that it overwrites the score with `q`. -/
def qualityContribution (line : List Char) : Option (Option ℚ) :=
  let trimmed := jsTrim line
  if ("CONNECTION_POSSIBLE:".toList).isPrefixOf trimmed then none
  else if ("QUALITY_SCORE:".toList).isPrefixOf trimmed then
    (firstDigitRun trimmed).map (fun m => jsClampQuality (jsParseFloatRun m))
  else none

/-- Reference characterization of the final quality score of a response: the
contribution of the last line that makes one, else the initial 0. -/
def qualityOfContent (content : String) : Option ℚ :=
  ((jsSplitOnChar '\n' content.toList).reverse.findSome? qualityContribution).getD (some 0)

/-- `jsTrim` returns a contiguous piece of its input. -/
theorem jsTrim_piece (s : List Char) : jsTrim s <:+: s := by
  have h1 : s.dropWhile Char.isWhitespace <:+ s := List.dropWhile_suffix _
  have h2 : (s.dropWhile Char.isWhitespace).reverse.dropWhile Char.isWhitespace <:+
      (s.dropWhile Char.isWhitespace).reverse := List.dropWhile_suffix _
  have h3 : ((s.dropWhile Char.isWhitespace).reverse.dropWhile Char.isWhitespace).reverse <+:
      ((s.dropWhile Char.isWhitespace).reverse).reverse := List.reverse_prefix.mpr h2
  rw [List.reverse_reverse] at h3
  exact h3.isInfix.trans h1.isInfix

/-- Every chunk produced by `jsSplitOnChar` is a contiguous piece of the
input, and the first chunk is a prefix. -/
theorem jsSplitOnChar_pieces (c : Char) (cs : List Char) :
    (∃ h t, jsSplitOnChar c cs = h :: t ∧ h <+: cs) ∧
    ∀ chunk ∈ jsSplitOnChar c cs, chunk <:+: cs := by
  induction cs with
  | nil =>
    refine ⟨⟨[], [], rfl, List.nil_prefix⟩, fun chunk hc => ?_⟩
    simp only [jsSplitOnChar, List.mem_singleton] at hc
    subst hc
    exact List.nil_infix
  | cons x xs ih =>
    obtain ⟨⟨hh, ht, hsplit, hpre⟩, hall⟩ := ih
    by_cases hx : x = c
    · refine ⟨⟨[], hh :: ht, by simp [jsSplitOnChar, hsplit, hx], List.nil_prefix⟩,
        fun chunk hc => ?_⟩
      simp only [jsSplitOnChar, hsplit, hx, if_pos] at hc
      rcases List.mem_cons.mp hc with rfl | hmem
      · exact List.nil_infix
      · exact (hall chunk (hsplit.symm ▸ hmem)).trans (List.suffix_cons x xs).isInfix
    · have hhead : x :: hh <+: x :: xs := List.cons_prefix_cons.mpr ⟨rfl, hpre⟩
      refine ⟨⟨x :: hh, ht, by simp [jsSplitOnChar, hsplit, hx], hhead⟩,
        fun chunk hc => ?_⟩
      simp only [jsSplitOnChar, hsplit, hx, if_neg, ite_false] at hc
      rcases List.mem_cons.mp hc with rfl | hmem
      · exact hhead.isInfix
      · exact (hall chunk (hsplit.symm ▸ List.mem_cons_of_mem hh hmem)).trans
          (List.suffix_cons x xs).isInfix

/-- `firstIdx` (JS `indexOf`) finds the pattern exactly when it occurs as a
contiguous piece. -/
theorem firstIdx_isSome_iff (pat s : List Char) :
    (firstIdx pat s).isSome ↔ pat <:+: s := by
  induction s with
  | nil =>
    simp only [firstIdx]
    by_cases h : pat.isPrefixOf ([] : List Char)
    · have hp : pat = [] := List.prefix_nil.mp (List.isPrefixOf_iff_prefix.mp h)
      simp [h, hp]
    · have hne : pat ≠ [] := by
        intro he
        exact h (List.isPrefixOf_iff_prefix.mpr (he ▸ List.nil_prefix))
      simp [h, List.infix_nil, hne]
  | cons a as ih =>
    simp only [firstIdx]
    by_cases h : pat.isPrefixOf (a :: as)
    · simp only [h, if_true, Option.isSome_some, true_iff]
      exact (List.isPrefixOf_iff_prefix.mp h).isInfix
    · have hmap : (Option.map (fun x => x + 1) (firstIdx pat as)).isSome =
          (firstIdx pat as).isSome := by
        cases firstIdx pat as <;> rfl
      simp only [h, if_false, Bool.false_eq_true, ite_false, hmap, ih, List.infix_cons_iff]
      constructor
      · exact Or.inr
      · rintro (hp | hi)
        · exact absurd (List.isPrefixOf_iff_prefix.mpr hp) h
        · exact hi

/-- One parsing-loop step changes the quality score exactly by the line's
contribution. -/
theorem parseStep_quality (st : LLMEvaluationResult) (line : List Char) :
    (parseStep st line).qualityScore = (qualityContribution line).getD st.qualityScore := by
  simp only [parseStep, qualityContribution]
  split_ifs with h1 h2 h3
  · rfl
  · cases h : firstDigitRun (jsTrim line) with
    | none => simp [h]
    | some m => simp [h]
  · rfl
  · rfl

/-- A line that does not contain the ANALOGY marker leaves the analogy
unchanged. -/
theorem parseStep_analogy_no_marker (st : LLMEvaluationResult) (line : List Char)
    (h : ¬ ("ANALOGY:".toList <:+: line)) :
    (parseStep st line).analogy = st.analogy := by
  simp only [parseStep]
  split_ifs with h1 h2 h3
  · rfl
  · cases hr : firstDigitRun (jsTrim line) <;> rfl
  · exfalso
    apply h
    have hpre : "ANALOGY:".toList <+: jsTrim line := List.isPrefixOf_iff_prefix.mp h3
    exact hpre.isInfix.trans (jsTrim_piece line)
  · rfl

/-- The folded quality score is the last contribution, else the initial
one. -/
theorem foldl_parseStep_quality (lines : List (List Char)) (st : LLMEvaluationResult) :
    (lines.foldl parseStep st).qualityScore =
      (lines.reverse.findSome? qualityContribution).getD st.qualityScore := by
  induction lines generalizing st with
  | nil => rfl
  | cons l ls ih =>
    rw [List.foldl_cons, ih, List.reverse_cons, List.findSome?_append]
    cases h : ls.reverse.findSome? qualityContribution with
    | some v => simp [h, Option.or]
    | none =>
      simp only [h, Option.none_or]
      rw [parseStep_quality]
      cases hc : qualityContribution l <;> simp [List.findSome?_cons, hc]

/-- When no line contains the ANALOGY marker the fold leaves the analogy
unchanged. -/
theorem foldl_parseStep_analogy (lines : List (List Char)) (st : LLMEvaluationResult)
    (h : ∀ l ∈ lines, ¬ ("ANALOGY:".toList <:+: l)) :
    (lines.foldl parseStep st).analogy = st.analogy := by
  induction lines generalizing st with
  | nil => rfl
  | cons l ls ih =>
    rw [List.foldl_cons, ih _ (fun x hx => h x (List.mem_cons_of_mem l hx))]
    exact parseStep_analogy_no_marker st l (h l (List.mem_cons_self l ls))

/-- C4 (amended): the example response parses to
`{connectionPossible: true, qualityScore: 0.8, analogy: "text here"}`; any
input without an ANALOGY marker yields an empty analogy; and for every input
the returned quality score is the clamped parse of the last quality-score
line's first `[\d.]+` match (NaN propagating unclamped when the match has no
digits), `0` when no quality-score line has a match. -/
theorem parse_eval_amended :
    parseEvaluationResponse
        "CONNECTION_POSSIBLE: YES\nQUALITY_SCORE: 0.8\nANALOGY: text here" =
      ⟨true, some (4/5), "text here"⟩ ∧
    (∀ content : String, strIncludes content "ANALOGY:" = false →
      (parseEvaluationResponse content).analogy = "") ∧
    (∀ content : String,
      (parseEvaluationResponse content).qualityScore = qualityOfContent content) := by
  refine ⟨?_, fun content hnm => ?_, fun content => ?_⟩
  · have h1 : parseEvaluationResponse
        "CONNECTION_POSSIBLE: YES\nQUALITY_SCORE: 0.8\nANALOGY: text here" =
        ⟨true, jsClampQuality (jsParseFloatRun ['0', '.', '8']), "text here"⟩ := rfl
    rw [h1]
    have h2 : jsParseFloatRun ['0', '.', '8'] =
        some (((0:ℕ):ℚ) + ((8:ℕ):ℚ) / 10 ^ 1) := rfl
    rw [h2]
    simp only [jsClampQuality, Option.map_some', LLMEvaluationResult.mk.injEq,
      true_and, and_true, Option.some.injEq]
    norm_num
  · have hmarker : ¬ ("ANALOGY:".toList <:+: content.toList) := by
      intro hinf
      simp only [strIncludes, listIncludes, decide_eq_false_iff_not] at hnm
      exact hnm hinf
    have hlines : ∀ l ∈ jsSplitOnChar '\n' content.toList,
        ¬ ("ANALOGY:".toList <:+: l) := by
      intro l hl hinf
      exact hmarker (hinf.trans ((jsSplitOnChar_pieces '\n' content.toList).2 l hl))
    have hfold := foldl_parseStep_analogy (jsSplitOnChar '\n' content.toList)
      ⟨false, some 0, ""⟩ hlines
    have hidx : firstIdx "ANALOGY:".toList content.toList = none := by
      rw [← Option.not_isSome_iff_eq_none]
      intro hs
      exact hmarker ((firstIdx_isSome_iff _ _).mp hs)
    simp only [parseEvaluationResponse]
    rw [if_pos hfold, hidx]
    exact hfold
  · have hq := foldl_parseStep_quality (jsSplitOnChar '\n' content.toList)
      ⟨false, some 0, ""⟩
    simp only [parseEvaluationResponse, qualityOfContent]
    split_ifs
    · cases hidx : firstIdx "ANALOGY:".toList content.toList with
      | some i => exact hq
      | none => exact hq
    · exact hq

/-- C4 counterexample: on `"QUALITY_SCORE: ."` the regex matches `"."`,
`parseFloat` yields NaN, and the returned quality score is NaN — not the
claimed fallback 0 and not a value clamped into [0,1]. -/
theorem parse_eval_counterexample :
    (parseEvaluationResponse "QUALITY_SCORE: .").qualityScore = none ∧
    (none : Option ℚ) ≠ some 0 :=
  ⟨rfl, fun h => Option.noConfusion h⟩

/-- Witness for C4's amended theorem at concrete inputs. -/
theorem parse_eval_amended_witness :
    strIncludes "no marker here" "ANALOGY:" = false ∧
    (parseEvaluationResponse "no marker here").analogy = "" ∧
    (parseEvaluationResponse "QUALITY_SCORE: 0.3").qualityScore =
      qualityOfContent "QUALITY_SCORE: 0.3" :=
  ⟨by rfl, parse_eval_amended.2.1 "no marker here" (by rfl),
   parse_eval_amended.2.2 "QUALITY_SCORE: 0.3"⟩

/-- The engine-side classification result carries the queried note id. -/
theorem ctxClassifyNote_noteId (ctx : DiscoverCtx) (noteId : String) (emb : List ℚ)
    (nd : NoteDomain) (h : ctxClassifyNote ctx noteId emb = .ok nd) :
    nd.noteId = noteId := by
  unfold ctxClassifyNote at h
  cases hcd : ctx.classifyData noteId with
  | error e => rw [hcd] at h; simp [Except.map] at h
  | ok info =>
    rw [hcd] at h
    simp only [Except.map, Except.ok.injEq] at h
    rw [← h]

/-- A connection emitted by the `try` block has the target's id, the source
note, and a target domain different from the source domain. -/
theorem tryCandidate_ok_some (ctx : DiscoverCtx) (src : NoteDomain) (sourceEmb : List ℚ)
    (targetNoteId : String) (targetEmb : List ℚ) (c : CrossDomainConnection)
    (h : tryCandidate ctx src sourceEmb targetNoteId targetEmb = .ok (some c)) :
    c.sourceNote = src ∧ c.targetNote.noteId = targetNoteId ∧
      c.targetNote.primaryDomain ≠ src.primaryDomain := by
  unfold tryCandidate at h
  split at h
  next e heq => simp at h
  next tgt heq =>
    split_ifs at h with hdom
    · simp at h
    · split at h
      next e heq2 => simp at h
      next similarity heq2 =>
        split_ifs at h with hsim
        · simp at h
        · dsimp only at h
          split at h
          next hscore => simp at h
          next hscore =>
            simp only [Except.ok.injEq, Option.some.injEq] at h
            subst h
            exact ⟨rfl, ctxClassifyNote_noteId ctx targetNoteId targetEmb tgt heq,
              fun he => hdom he.symm⟩

/-- A connection emitted by one scan iteration is not the source itself, has
the source note and the candidate id, and crosses domains. -/
theorem processCandidate_some (ctx : DiscoverCtx) (src : NoteDomain) (sourceEmb : List ℚ)
    (cand : String × List ℚ) (c : CrossDomainConnection)
    (h : processCandidate ctx src sourceEmb cand = some c) :
    cand.1 ≠ ctx.sourceNoteId ∧ c.sourceNote = src ∧
      c.targetNote.noteId = cand.1 ∧ c.targetNote.primaryDomain ≠ src.primaryDomain := by
  simp only [processCandidate] at h
  split_ifs at h with hself hpath hlink
  split at h
  next e heq => simp at h
  next r heq =>
    subst h
    obtain ⟨h1, h2, h3⟩ := tryCandidate_ok_some ctx src sourceEmb cand.1 cand.2 c heq
    exact ⟨hself, h1, h2, h3⟩

/-- C3: every connection returned by the Standard Engine's `execute` has the
source note's id as its source, a target id different from the source id, and
a target primary domain different from the source's. -/
theorem discover_cross_domain_invariant (ctx : DiscoverCtx)
    (l : List CrossDomainConnection) (c : CrossDomainConnection)
    (hex : discoverExecute ctx = .ok l) (hc : c ∈ l) :
    c.sourceNote.noteId = ctx.sourceNoteId ∧
    c.targetNote.noteId ≠ ctx.sourceNoteId ∧
    c.targetNote.primaryDomain ≠ c.sourceNote.primaryDomain := by
  unfold discoverExecute at hex
  split at hex
  next heq =>
    simp only [Except.ok.injEq] at hex
    subst hex
    cases hc
  next sourceEmb heq =>
    split at hex
    next e heq2 => simp at hex
    next src heq2 =>
      simp only [Except.ok.injEq] at hex
      subst hex
      have hc2 : c ∈ sortConnections
          (ctx.allEmbeddings.filterMap (processCandidate ctx src sourceEmb)) :=
        List.take_subset _ _ hc
      have hc3 : c ∈ ctx.allEmbeddings.filterMap (processCandidate ctx src sourceEmb) := by
        rw [sortConnections] at hc2
        exact List.mem_mergeSort.mp hc2
      obtain ⟨cand, _, hpc⟩ := List.mem_filterMap.mp hc3
      obtain ⟨hne, hsrc, htgt, hdom⟩ := processCandidate_some ctx src sourceEmb cand c hpc
      refine ⟨?_, ?_, ?_⟩
      · rw [hsrc]
        exact ctxClassifyNote_noteId ctx ctx.sourceNoteId sourceEmb src heq2
      · rw [htgt]
        exact hne
      · rw [hsrc]
        exact hdom

/-- Singleton lists are fixed by the final sort. -/
theorem sortConnections_singleton (c : CrossDomainConnection) :
    sortConnections [c] = [c] :=
  List.perm_singleton.mp (List.mergeSort_perm [c] _)

/-- Concrete discovery context: source note a (domain phil), one candidate
b (domain bio), thresholds 0, identical one-entry embeddings. -/
def ctxC3 : DiscoverCtx where
  sourceNoteId := "a"
  getEmbedding := fun id => if id = "a" then some [1] else none
  allEmbeddings := [("b", [1])]
  classifyData := fun id =>
    if id = "a" then .ok ⟨"pa", "ta", "phil", [], []⟩
    else .ok ⟨"pb", "tb", "bio", [], []⟩
  pathOf := fun _ => none
  options := ⟨0, 0, 10, [], [], none⟩
  sq := fun _ => 1
  now := "t0"

/-- The classified source note of `ctxC3`. -/
def srcW3 : NoteDomain := ⟨"a", "pa", "ta", "phil", [], [], some [1]⟩

/-- The classified target note of `ctxC3`. -/
def tgtW3 : NoteDomain := ⟨"b", "pb", "tb", "bio", [], [], some [1]⟩

/-- The connection discovery at `ctxC3` produces. -/
def cW3 : CrossDomainConnection :=
  ⟨srcW3, tgtW3, ⟨1⟩, ⟨1⟩, 1, .unexpected_similarity, none, "t0"⟩

/-- Witness for C3 at the concrete context `ctxC3`. -/
theorem discover_cross_domain_invariant_witness :
    discoverExecute ctxC3 = .ok [cW3] ∧
    cW3.sourceNote.noteId = ctxC3.sourceNoteId ∧
    cW3.targetNote.noteId ≠ ctxC3.sourceNoteId ∧
    cW3.targetNote.primaryDomain ≠ cW3.sourceNote.primaryDomain := by
  have hcs : cosineSimilarity ctxC3.sq [(1:ℚ)] [1] = .ok 1 := by
    rw [cosineSimilarity, show ctxC3.sq = fun _ => (1:ℚ) from rfl]
    norm_num
  have htc : tryCandidate ctxC3 srcW3 [(1:ℚ)] "b" [1] = .ok (some cW3) := by
    rw [tryCandidate, show ctxClassifyNote ctxC3 "b" [(1:ℚ)] = .ok tgtW3 from rfl]
    dsimp only
    rw [if_neg (show ¬srcW3.primaryDomain = tgtW3.primaryDomain from by decide), hcs]
    dsimp only
    rw [if_neg (show ¬(1:ℚ) < ctxC3.options.minSimilarity from by
      rw [show ctxC3.options.minSimilarity = (0:ℚ) from rfl]; norm_num)]
    rw [show DomainDistance.fromTagJaccard srcW3.tags tgtW3.tags = DomainDistance.mk' 1 from rfl]
    rw [show countGenericTerms tgtW3 = 0 from rfl]
    have hscore : (SerendipityScore.calculate ⟨1, (DomainDistance.mk' 1).value, false, 0⟩).value
        = 1 := by
      norm_num [SerendipityScore.calculate, SerendipityScore.mk', DomainDistance.mk',
        jsClamp01, min_def, max_def]
    rw [if_neg (show ¬(SerendipityScore.calculate
        ⟨1, (DomainDistance.mk' 1).value, false, 0⟩).value < ctxC3.options.minSerendipityScore
      from by
        rw [hscore, show ctxC3.options.minSerendipityScore = (0:ℚ) from rfl]; norm_num)]
    simp only [cW3, srcW3, tgtW3, Except.ok.injEq, Option.some.injEq,
      CrossDomainConnection.mk.injEq, SerendipityScore.calculate, SerendipityScore.mk',
      DomainDistance.mk', SerendipityScore.mk.injEq, DomainDistance.mk.injEq,
      inferConnectionType, jsClamp01, show ctxC3.now = "t0" from rfl]
    norm_num [min_def, max_def]
  have hshape : processCandidate ctxC3 srcW3 [(1:ℚ)] ("b", [1]) =
      (match tryCandidate ctxC3 srcW3 [(1:ℚ)] "b" [1] with
       | .error _ => none
       | .ok r => r) := rfl
  have hpc : processCandidate ctxC3 srcW3 [(1:ℚ)] ("b", [1]) = some cW3 := by
    rw [hshape, htc]
  have h1 : discoverExecute ctxC3 =
      .ok ((sortConnections (List.filterMap (processCandidate ctxC3 srcW3 [1])
        [("b", [(1:ℚ)])])).take 10) := rfl
  have h2 : List.filterMap (processCandidate ctxC3 srcW3 [1]) [("b", [(1:ℚ)])] = [cW3] := by
    simp [List.filterMap_cons, hpc]
  have hrun : discoverExecute ctxC3 = .ok [cW3] := by
    rw [h1, h2, sortConnections_singleton]
    rfl
  refine ⟨hrun, ?_⟩
  exact discover_cross_domain_invariant ctxC3 [cW3] cW3 hrun (List.mem_singleton_self cW3)

/-- With mismatched embedding lengths the `try` block can never emit a
connection: `cosineSimilarity` throws first. -/
theorem tryCandidate_not_some_of_mismatch (ctx : DiscoverCtx) (src : NoteDomain)
    (sourceEmb : List ℚ) (targetNoteId : String) (targetEmb : List ℚ)
    (hlen : targetEmb.length ≠ sourceEmb.length) (c : CrossDomainConnection) :
    tryCandidate ctx src sourceEmb targetNoteId targetEmb ≠ .ok (some c) := by
  intro h
  unfold tryCandidate at h
  split at h
  next e heq => simp at h
  next tgt heq =>
    split_ifs at h with hdom
    · simp at h
    · rw [cosineSimilarity,
        if_pos (show sourceEmb.length ≠ targetEmb.length from fun he => hlen he.symm)] at h
      simp at h

/-- A candidate whose embedding length differs from the source's is skipped:
the thrown length error is caught by the per-candidate catch. -/
theorem processCandidate_none_of_mismatch (ctx : DiscoverCtx) (src : NoteDomain)
    (sourceEmb : List ℚ) (cand : String × List ℚ)
    (hlen : cand.2.length ≠ sourceEmb.length) :
    processCandidate ctx src sourceEmb cand = none := by
  simp only [processCandidate]
  split_ifs with hself hpath hlink
  · rfl
  · rfl
  · rfl
  · split
    next e heq => rfl
    next r heq =>
      cases r with
      | none => rfl
      | some c =>
        exact absurd heq
          (tryCandidate_not_some_of_mismatch ctx src sourceEmb cand.1 cand.2 hlen c)

/-- The empty list is fixed by the final sort. -/
theorem sortConnections_nil : sortConnections [] = [] :=
  (List.mergeSort_perm ([] : List CrossDomainConnection) _).eq_nil

/-- C2 (amended): a candidate pair with mismatched embedding vector lengths
is silently skipped — removing it from the store leaves the discovery result
unchanged, and the call does not abort. -/
theorem discover_skips_mismatched_pair (ctx : DiscoverCtx) (sourceEmb : List ℚ)
    (pre post : List (String × List ℚ)) (cand : String × List ℚ)
    (hsrc : ctx.getEmbedding ctx.sourceNoteId = some sourceEmb)
    (hsplit : ctx.allEmbeddings = pre ++ cand :: post)
    (hlen : cand.2.length ≠ sourceEmb.length) :
    discoverExecute ctx = discoverExecute { ctx with allEmbeddings := pre ++ post } := by
  unfold discoverExecute
  dsimp only
  rw [hsrc, hsplit]
  have hcc : ctxClassifyNote { ctx with allEmbeddings := pre ++ post } = ctxClassifyNote ctx :=
    rfl
  have hpp : processCandidate { ctx with allEmbeddings := pre ++ post } =
      processCandidate ctx := rfl
  rw [hcc, hpp]
  dsimp only
  cases hcl : ctxClassifyNote ctx ctx.sourceNoteId sourceEmb with
  | error e => rfl
  | ok src =>
    dsimp only
    rw [List.filterMap_append, List.filterMap_append,
      List.filterMap_cons_none (processCandidate_none_of_mismatch ctx src sourceEmb cand hlen)]

/-- Concrete context whose only candidate has a 1-entry embedding against a
2-entry source embedding. -/
def ctxC2 : DiscoverCtx where
  sourceNoteId := "a"
  getEmbedding := fun id => if id = "a" then some [1, 0] else none
  allEmbeddings := [("b", [1])]
  classifyData := fun id =>
    if id = "a" then .ok ⟨"pa", "ta", "phil", [], []⟩
    else .ok ⟨"pb", "tb", "bio", [], []⟩
  pathOf := fun _ => none
  options := ⟨0, 0, 10, [], [], none⟩
  sq := fun _ => 1
  now := "t0"

/-- The classified source note of `ctxC2`. -/
def srcW2 : NoteDomain := ⟨"a", "pa", "ta", "phil", [], [], some [1, 0]⟩

/-- C2 counterexample: at `ctxC2` the candidate's embedding length differs
from the source's, yet `execute` returns `.ok []` — the pair is
skipped and no error is raised, contradicting the claimed abort. -/
theorem discover_mismatch_counterexample :
    ctxC2.getEmbedding ctxC2.sourceNoteId = some [1, 0] ∧
    ctxC2.allEmbeddings = [("b", [1])] ∧
    ([(1:ℚ)] : List ℚ).length ≠ ([(1:ℚ), 0] : List ℚ).length ∧
    discoverExecute ctxC2 = Except.ok [] := by
  refine ⟨rfl, rfl, by decide, ?_⟩
  have hpc : processCandidate ctxC2 srcW2 [(1:ℚ), 0] ("b", [1]) = none :=
    processCandidate_none_of_mismatch ctxC2 srcW2 [1, 0] ("b", [1]) (by decide)
  have h1 : discoverExecute ctxC2 =
      .ok ((sortConnections (List.filterMap (processCandidate ctxC2 srcW2 [1, 0])
        [("b", [(1:ℚ)])])).take 10) := rfl
  have h2 : List.filterMap (processCandidate ctxC2 srcW2 [1, 0]) [("b", [(1:ℚ)])] = [] := by
    simp [List.filterMap_cons, hpc]
  rw [h1, h2, sortConnections_nil]
  rfl

/-- Witness for C2's amended theorem at `ctxC2`. -/
theorem discover_skips_mismatched_pair_witness :
    ctxC2.getEmbedding ctxC2.sourceNoteId = some [1, 0] ∧
    ctxC2.allEmbeddings = [] ++ ("b", [(1:ℚ)]) :: [] ∧
    (("b", [(1:ℚ)]) : String × List ℚ).2.length ≠ ([(1:ℚ), 0] : List ℚ).length ∧
    discoverExecute ctxC2 =
      discoverExecute { ctxC2 with allEmbeddings := ([] : List (String × List ℚ)) ++ [] } :=
  ⟨rfl, rfl, by decide,
   discover_skips_mismatched_pair ctxC2 [1, 0] [] [] ("b", [1]) rfl rfl (by decide)⟩

/-- Every pair in a sampled cross product carries the constant distance 1. -/
theorem crossPairs_dd (notes1 notes2 : List NoteDomain) (p : DeepPair)
    (hp : p ∈ crossPairs notes1 notes2) : p.domainDistance = 1 := by
  simp only [crossPairs, List.mem_flatMap, List.mem_map] at hp
  obtain ⟨n1, _, n2, _, rfl⟩ := hp
  rfl

/-- Every pair produced by the domain-pair double loop carries distance 1. -/
theorem pairsFromGroups_dd (ctx : DeepCtx) (groups : List (String × List NoteDomain))
    (p : DeepPair) (hp : p ∈ pairsFromGroups ctx groups) : p.domainDistance = 1 := by
  induction groups with
  | nil => cases hp
  | cons g rest ih =>
    simp only [pairsFromGroups, List.mem_append, List.mem_flatMap] at hp
    rcases hp with ⟨g2, _, hcp⟩ | hrest
    · exact crossPairs_dd _ _ p hcp
    · exact ih hrest

/-- C8: every connection the Deep (LLM-first) engine's `execute` returns
carries `domainDistance` exactly 1.0, for any shuffle that only reorders or
drops pairs. -/
theorem deep_domain_distance_one (ctx : DeepCtx)
    (hsh : ∀ l p, p ∈ ctx.shufflePairs l → p ∈ l)
    (c : DeepSerendipityConnection) (hc : c ∈ deepExecute ctx) :
    c.domainDistance = 1 := by
  simp only [deepExecute] at hc
  split_ifs at hc with hempty
  · cases hc
  · have hc2 : c ∈ sortDeepConnections ((evaluatePairsWithLLM ctx
        (sampleCrossDomainPairs ctx (groupNotesByDomain ctx))).filter
        (fun conn => jsGe conn.creativityScore ctx.minQualityScore)) :=
      List.take_subset _ _ hc
    rw [sortDeepConnections] at hc2
    have hc3 := List.mem_mergeSort.mp hc2
    have hc4 : c ∈ evaluatePairsWithLLM ctx
        (sampleCrossDomainPairs ctx (groupNotesByDomain ctx)) :=
      List.mem_of_mem_filter hc3
    rw [evaluatePairsWithLLM] at hc4
    obtain ⟨pair, hpair, hsome⟩ := List.mem_filterMap.mp hc4
    dsimp only at hsome
    have hdd : c.domainDistance = pair.domainDistance := by
      split_ifs at hsome with hcond
      simp only [Option.some.injEq] at hsome
      rw [← hsome]
    rw [hdd]
    rw [sampleCrossDomainPairs] at hpair
    split_ifs at hpair with hlt
    · cases hpair
    · have h5 : pair ∈ ctx.shufflePairs (pairsFromGroups ctx (groupNotesByDomain ctx)) :=
        List.take_subset _ _ hpair
      exact pairsFromGroups_dd ctx _ pair (hsh _ pair h5)

/-- Evaluation of a single pair that passes the flag and positivity check. -/
theorem evaluatePairsWithLLM_singleton (ctx : DeepCtx) (p : DeepPair)
    (ev : LLMEvaluationResult) (hev : evaluateSinglePair ctx p.source p.target = ev)
    (hcond : (ev.connectionPossible && jsGtZero ev.qualityScore) = true) :
    evaluatePairsWithLLM ctx [p] =
      [⟨p.source, p.target, ev.qualityScore, ev.analogy, p.domainDistance, ctx.now⟩] := by
  simp only [evaluatePairsWithLLM, List.filterMap_cons, List.filterMap_nil]
  rw [hev, if_pos hcond]

/-- Concrete deep context: two notes in two domains, an evaluator answering
YES with quality 1. -/
def ctxC8 : DeepCtx where
  allEmbeddings := [("a", [1]), ("b", [2])]
  pathOf := fun _ => some "p.md"
  classifyData := fun id =>
    if id = "a" then .ok ⟨"pa", "ta", "phil", [], ["x"]⟩
    else .ok ⟨"pb", "tb", "bio", [], ["y"]⟩
  evalLLM := fun _ _ => some "CONNECTION_POSSIBLE: YES\nQUALITY_SCORE: 1\nANALOGY: ok"
  maxPairsToEvaluate := 30
  minQualityScore := 1/2
  maxResults := 10
  includeFolders := []
  excludeFolders := []
  sample := fun l _ => l
  shufflePairs := fun l => l
  now := "t0"

/-- First classified note of `ctxC8`. -/
def n1W : NoteDomain := ⟨"a", "pa", "ta", "phil", [], ["x"], some [1]⟩

/-- Second classified note of `ctxC8`. -/
def n2W : NoteDomain := ⟨"b", "pb", "tb", "bio", [], ["y"], some [2]⟩

/-- The deep connection `ctxC8` produces. -/
def cW8 : DeepSerendipityConnection := ⟨n1W, n2W, some 1, "ok", 1, "t0"⟩

/-- Singleton lists are fixed by the deep-result sort. -/
theorem sortDeepConnections_singleton (c : DeepSerendipityConnection) :
    sortDeepConnections [c] = [c] :=
  List.perm_singleton.mp (List.mergeSort_perm [c] _)

/-- Witness for C8 at `ctxC8`. -/
theorem deep_domain_distance_one_witness :
    cW8 ∈ deepExecute ctxC8 ∧ cW8.domainDistance = 1 := by
  have hq : jsClampQuality (jsParseFloatRun ['1']) = some 1 := by
    rw [show jsParseFloatRun ['1'] = some (((1:ℕ):ℚ) + ((0:ℕ):ℚ) / 10 ^ 0) from rfl]
    simp only [jsClampQuality, Option.map_some', Option.some.injEq]
    norm_num
  have hparse : parseEvaluationResponse
      "CONNECTION_POSSIBLE: YES\nQUALITY_SCORE: 1\nANALOGY: ok" =
      ⟨true, some 1, "ok"⟩ := by
    rw [show parseEvaluationResponse
        "CONNECTION_POSSIBLE: YES\nQUALITY_SCORE: 1\nANALOGY: ok" =
        ⟨true, jsClampQuality (jsParseFloatRun ['1']), "ok"⟩ from rfl, hq]
  have hev : evaluateSinglePair ctxC8 n1W n2W = ⟨true, some 1, "ok"⟩ := by
    rw [show evaluateSinglePair ctxC8 n1W n2W = parseEvaluationResponse
      "CONNECTION_POSSIBLE: YES\nQUALITY_SCORE: 1\nANALOGY: ok" from rfl, hparse]
  have hcond : ((true : Bool) && jsGtZero (some 1)) = true := by
    norm_num [jsGtZero]
  have heval := evaluatePairsWithLLM_singleton ctxC8 ⟨n1W, n2W, 1⟩ ⟨true, some 1, "ok"⟩ hev hcond
  have hfilter : List.filter (fun conn => jsGe conn.creativityScore ctxC8.minQualityScore)
      [cW8] = [cW8] := by
    rw [show ctxC8.minQualityScore = (1:ℚ)/2 from rfl]
    simp only [List.filter, cW8]
    norm_num [jsGe]
  have hrun : deepExecute ctxC8 = [cW8] := by
    rw [show deepExecute ctxC8 = (sortDeepConnections
      ((evaluatePairsWithLLM ctxC8 [⟨n1W, n2W, 1⟩]).filter
        (fun conn => jsGe conn.creativityScore ctxC8.minQualityScore))).take 10 from rfl]
    rw [heval]
    rw [show (⟨n1W, n2W, (⟨true, some 1, "ok"⟩ : LLMEvaluationResult).qualityScore,
      (⟨true, some 1, "ok"⟩ : LLMEvaluationResult).analogy, (⟨n1W, n2W, (1:ℚ)⟩ : DeepPair).domainDistance,
      ctxC8.now⟩ : DeepSerendipityConnection) = cW8 from rfl]
    rw [hfilter, sortDeepConnections_singleton]
    rfl
  refine ⟨?_, ?_⟩
  · rw [hrun]
    exact List.mem_singleton_self cW8
  · exact deep_domain_distance_one ctxC8 (fun l p h => h) cW8 (by rw [hrun]; exact List.mem_singleton_self cW8)

/-- The collect-if-new step of `extractSecondaryDomains` preserves absence of
the primary domain and absence of duplicates. -/
theorem foldl_insert_invariant (primaryDomain : String) (f : String → String)
    (l : List String) (acc : List String) (h1 : primaryDomain ∉ acc) (h2 : acc.Nodup) :
    primaryDomain ∉ l.foldl (fun acc tag =>
        if f tag ≠ primaryDomain ∧ ¬ acc.contains (f tag) then acc ++ [f tag] else acc) acc ∧
    (l.foldl (fun acc tag =>
        if f tag ≠ primaryDomain ∧ ¬ acc.contains (f tag) then acc ++ [f tag] else acc)
      acc).Nodup := by
  induction l generalizing acc with
  | nil => exact ⟨h1, h2⟩
  | cons t ts ih =>
    simp only [List.foldl_cons]
    by_cases hc : f t ≠ primaryDomain ∧ ¬ acc.contains (f t)
    · rw [if_pos hc]
      apply ih
      · simp only [List.mem_append, List.mem_singleton]
        rintro (h | h)
        · exact h1 h
        · exact hc.1 h.symm
      · have hni : f t ∉ acc := fun hm => hc.2 (List.elem_eq_true_of_mem hm)
        simp [List.nodup_append, h2, hni]
    · rw [if_neg hc]
      exact ih acc h1 h2

/-- `extractSecondaryDomains` never returns the primary domain and never
returns duplicates. -/
theorem extractSecondaryDomains_invariant (starts tags : List String)
    (primaryDomain : String) :
    primaryDomain ∉ extractSecondaryDomains starts tags primaryDomain ∧
    (extractSecondaryDomains starts tags primaryDomain).Nodup := by
  suffices h : ∀ (ss : List String) (acc : List String), primaryDomain ∉ acc → acc.Nodup →
      primaryDomain ∉ ss.foldl (fun acc pre =>
        (tags.filter (fun t => strStarts t pre)).foldl (fun acc tag =>
          let domain := String.mk (tag.toList.drop pre.toList.length)
          if domain ≠ primaryDomain ∧ ¬ acc.contains domain then acc ++ [domain]
          else acc) acc) acc ∧
      (ss.foldl (fun acc pre =>
        (tags.filter (fun t => strStarts t pre)).foldl (fun acc tag =>
          let domain := String.mk (tag.toList.drop pre.toList.length)
          if domain ≠ primaryDomain ∧ ¬ acc.contains domain then acc ++ [domain]
          else acc) acc) acc).Nodup by
    rw [extractSecondaryDomains]
    exact h starts [] (by simp) List.nodup_nil
  intro ss
  induction ss with
  | nil => exact fun acc h1 h2 => ⟨h1, h2⟩
  | cons pre rest ih =>
    intro acc h1 h2
    simp only [List.foldl_cons]
    obtain ⟨g1, g2⟩ := foldl_insert_invariant primaryDomain
      (fun tag => String.mk (tag.toList.drop pre.toList.length))
      (tags.filter (fun t => strStarts t pre)) acc h1 h2
    exact ih _ g1 g2

/-- C10: for every note `classifyNote` classifies (any method), the returned
secondary domains exclude the primary domain and contain no duplicates. -/
theorem classify_secondary_invariant (ctx : ClassifierCtx) (noteId : String)
    (emb : Option (List ℚ)) (nd : NoteDomain)
    (h : classifierClassifyNote ctx noteId emb = .ok nd) :
    nd.primaryDomain ∉ nd.secondaryDomains ∧ nd.secondaryDomains.Nodup := by
  unfold classifierClassifyNote at h
  split at h
  next heq => simp at h
  next file heq =>
    simp only [Except.ok.injEq] at h
    subst h
    exact extractSecondaryDomains_invariant _ _ _

/-- Concrete classifier context with two domain tags. -/
def ctxC10 : ClassifierCtx where
  lookupFile := fun id =>
    if id = "a" then some ⟨"Phil/a.md", "a", ["domain/phil", "domain/bio"]⟩ else none
  method := .tag
  domainTagStarts := ["domain/"]

/-- The classification `ctxC10` produces for note a. -/
def ndW10 : NoteDomain :=
  ⟨"a", "Phil/a.md", "a", "phil", ["bio"], ["domain/phil", "domain/bio"], none⟩

/-- Witness for C10 at `ctxC10`. -/
theorem classify_secondary_invariant_witness :
    classifierClassifyNote ctxC10 "a" none = .ok ndW10 ∧
    ndW10.primaryDomain ∉ ndW10.secondaryDomains ∧ ndW10.secondaryDomains.Nodup :=
  ⟨rfl, classify_secondary_invariant ctxC10 "a" none ndW10 rfl⟩
